import Mathlib

/- Verification of the calc-rs RPN calculator core (src/main.rs): the nom-based
line parser (`Line::parse`) and the stack evaluator (`Line::calc`) over
`num::Rational64`.  Rational64 values are modelled as `ℚ` (the Rust Ratio is
kept reduced with a positive denominator, so reduced fractions are in
bijection with `ℚ`); i64 overflow is modelled by explicit range checks on the
numerator/denominator components at the same points where the num crate's
checked operations perform them. -/

/- Range of a 64-bit signed integer (the components of Rational64). -/
def fitsI64 (n : ℤ) : Prop := -(2 ^ 63) ≤ n ∧ n ≤ 2 ^ 63 - 1

instance (n : ℤ) : Decidable (fitsI64 n) :=
  inferInstanceAs (Decidable (-(2 ^ 63) ≤ n ∧ n ≤ 2 ^ 63 - 1))

/- Range of a 32-bit signed integer (the exponent width of Ratio::pow). -/
def fitsI32 (n : ℤ) : Prop := -(2 ^ 31) ≤ n ∧ n ≤ 2 ^ 31 - 1

instance (n : ℤ) : Decidable (fitsI32 n) :=
  inferInstanceAs (Decidable (-(2 ^ 31) ≤ n ∧ n ≤ 2 ^ 31 - 1))

/- Intermediates of Ratio::checked_add / checked_sub (num crate, external
dependency of src/main.rs): with lcm = (b/gcd(b,d))*d, the two numerators are
scaled to the lcm and combined; each step uses a checked i64 operation. -/
def addLcm (x y : ℚ) : ℤ := ((x.den : ℤ) / Int.gcd (x.den : ℤ) (y.den : ℤ)) * (y.den : ℤ)

def addLhs (x y : ℚ) : ℤ := (addLcm x y / (x.den : ℤ)) * x.num

def addRhs (x y : ℚ) : ℤ := (addLcm x y / (y.den : ℤ)) * y.num

/- All intermediate checked i64 steps of Ratio::checked_add succeed. -/
def addFits (x y : ℚ) : Prop :=
  fitsI64 (addLcm x y) ∧ fitsI64 (addLhs x y) ∧ fitsI64 (addRhs x y) ∧
    fitsI64 (addLhs x y + addRhs x y)

instance (x y : ℚ) : Decidable (addFits x y) :=
  inferInstanceAs (Decidable (_ ∧ _ ∧ _ ∧ _))

/- All intermediate checked i64 steps of Ratio::checked_sub succeed. -/
def subFits (x y : ℚ) : Prop :=
  fitsI64 (addLcm x y) ∧ fitsI64 (addLhs x y) ∧ fitsI64 (addRhs x y) ∧
    fitsI64 (addLhs x y - addRhs x y)

instance (x y : ℚ) : Decidable (subFits x y) :=
  inferInstanceAs (Decidable (_ ∧ _ ∧ _ ∧ _))

/- Intermediates of Ratio::checked_mul: cross-reduced numerator and
denominator products, each a checked i64 multiplication. -/
def mulNum (x y : ℚ) : ℤ :=
  (x.num / Int.gcd x.num (y.den : ℤ)) * (y.num / Int.gcd (x.den : ℤ) y.num)

def mulDen (x y : ℚ) : ℤ :=
  ((x.den : ℤ) / Int.gcd (x.den : ℤ) y.num) * ((y.den : ℤ) / Int.gcd x.num (y.den : ℤ))

def mulFits (x y : ℚ) : Prop := fitsI64 (mulNum x y) ∧ fitsI64 (mulDen x y)

instance (x y : ℚ) : Decidable (mulFits x y) :=
  inferInstanceAs (Decidable (_ ∧ _))

/- Intermediates of Ratio::checked_div: cross-reduced products against the
reciprocal of the divisor. -/
def divNum (x y : ℚ) : ℤ :=
  (x.num / Int.gcd x.num y.num) * ((y.den : ℤ) / Int.gcd (x.den : ℤ) (y.den : ℤ))

def divDen (x y : ℚ) : ℤ :=
  ((x.den : ℤ) / Int.gcd (x.den : ℤ) (y.den : ℤ)) * (y.num / Int.gcd x.num y.num)

def divFits (x y : ℚ) : Prop := fitsI64 (divNum x y) ∧ fitsI64 (divDen x y)

instance (x y : ℚ) : Decidable (divFits x y) :=
  inferInstanceAs (Decidable (_ ∧ _))

/- Rational64::checked_add: the exact reduced sum when every intermediate i64
step fits, None on overflow. -/
def ratCheckedAdd (x y : ℚ) : Option ℚ :=
  if addFits x y then some (x + y) else none

/- Rational64::checked_sub. -/
def ratCheckedSub (x y : ℚ) : Option ℚ :=
  if subFits x y then some (x - y) else none

/- Rational64::checked_mul. -/
def ratCheckedMul (x y : ℚ) : Option ℚ :=
  if mulFits x y then some (x * y) else none

/- Rational64::checked_div: None when the divisor is zero or an intermediate
overflows, otherwise the exact reduced quotient. -/
def ratCheckedDiv (x y : ℚ) : Option ℚ :=
  if y = 0 then none
  else if divFits x y then some (x / y) else none

/- The plain (unchecked) Ratio addition used by iter().sum() in the Sum
operator: same exact value as checked_add, but on i64 overflow it panics in a
debug build and wraps in a release build instead of reporting an error; the
`none` result models that abnormal outcome. -/
def ratAddPanicking (x y : ℚ) : Option ℚ := ratCheckedAdd x y

/- Left fold of Sum's iter().sum() over the stack, bottom entry first. -/
def ratSumFrom (acc : ℚ) : List ℚ → Option ℚ
  | [] => some acc
  | x :: rest =>
    match ratAddPanicking acc x with
    | some a => ratSumFrom a rest
    | none => none

/- stack.0.iter().sum() of the Sum operator. -/
def ratSum (l : List ℚ) : Option ℚ := ratSumFrom 0 l

/- Rational64::to_integer: numerator / denominator with Rust's truncating
(toward zero) i64 division. -/
def ratToInteger (q : ℚ) : ℤ := Int.tdiv q.num q.den

/- The i64 component powers taken by Ratio::pow (unchecked i64::pow) stay in
range. -/
def powFits (b : ℚ) (n : ℕ) : Prop := fitsI64 (b.num ^ n) ∧ fitsI64 ((b.den : ℤ) ^ n)

instance (b : ℚ) (n : ℕ) : Decidable (powFits b n) :=
  inferInstanceAs (Decidable (_ ∧ _))

/- Rational64::pow with an i32 exponent: a negative exponent takes the
reciprocal first (Ratio::recip panics on zero, modelled as none) and then a
natural power of the components with unchecked i64::pow, which panics (debug)
or wraps (release) on overflow — also modelled as none. -/
def ratPow (b : ℚ) (e : ℤ) : Option ℚ :=
  if e < 0 then
    if b = 0 then none
    else if powFits b⁻¹ e.natAbs then some (b⁻¹ ^ e.natAbs) else none
  else if powFits b e.toNat then some (b ^ e.toNat) else none

/- The operator alphabet of src/main.rs (enum Operator). -/
inductive Operator where
  | Add
  | Multiply
  | Subtract
  | Divide
  | Sum
  | Power
  | Clear
deriving DecidableEq

/- enum Item: a parsed token, a number or an operator. -/
inductive Item where
  | Num (n : ℚ)
  | Operator (op : Operator)
deriving DecidableEq

/- struct Line(Vec<Item>): one parsed input line. -/
abbrev Line := List Item

/- struct Stack(Vec<Rational64>): bottom of the Vec first, top of the stack
last. -/
abbrev Stack := List ℚ

/- enum CalcError of src/main.rs. -/
inductive CalcError where
  | NotEnoughItemsInStack
  | MathError
deriving DecidableEq

/- Outcome of Line::calc: the Rust Result<Stack, CalcError> plus an explicit
`panicked` case for the executions in which the process aborts (or, for
release-build integer overflow, silently wraps) instead of returning. -/
inductive CalcResult where
  | ok (s : Stack)
  | err (e : CalcError)
  | panicked
deriving DecidableEq

/- Vec::pop: removes and returns the last element. -/
def pop1 : List ℚ → Option (List ℚ × ℚ)
  | [] => none
  | [x] => some ([], x)
  | x :: y :: rest =>
    match pop1 (y :: rest) with
    | some (s, a) => some (x :: s, a)
    | none => none

/- The shared shape of the four checked binary operator arms of Line::calc:
pop a, pop b, push (b OP a), with NotEnoughItemsInStack on a failed pop and
MathError when the checked operation returns None. -/
def binStep (f : ℚ → ℚ → Option ℚ) (s : Stack) : CalcResult :=
  match pop1 s with
  | none => .err .NotEnoughItemsInStack
  | some (s1, a) =>
    match pop1 s1 with
    | none => .err .NotEnoughItemsInStack
    | some (s2, b) =>
      match f b a with
      | none => .err .MathError
      | some r => .ok (s2 ++ [r])

/- The Operator::Power arm of Line::calc: pop a, pop b, truncate a to an
integer, MathError if it does not fit an i32, then b.pow(exponent). -/
def powStep (s : Stack) : CalcResult :=
  match pop1 s with
  | none => .err .NotEnoughItemsInStack
  | some (s1, a) =>
    match pop1 s1 with
    | none => .err .NotEnoughItemsInStack
    | some (s2, b) =>
      if fitsI32 (ratToInteger a) then
        match ratPow b (ratToInteger a) with
        | some r => .ok (s2 ++ [r])
        | none => .panicked
      else .err .MathError

/- One operator arm of the fold in Line::calc. -/
def applyOp (s : Stack) : Operator → CalcResult
  | .Add => binStep ratCheckedAdd s
  | .Multiply => binStep ratCheckedMul s
  | .Subtract => binStep ratCheckedSub s
  | .Divide => binStep ratCheckedDiv s
  | .Sum =>
    match ratSum s with
    | some t => .ok [t]
    | none => .panicked
  | .Power => powStep s
  | .Clear => .ok []

/- One token of the fold in Line::calc: numbers are pushed, operators applied. -/
def applyItem (s : Stack) : Item → CalcResult
  | .Num n => .ok (s ++ [n])
  | .Operator op => applyOp s op

/- Line::calc: fold the line's tokens left to right over the given stack;
the Result accumulator makes any failure terminal. -/
def calcItems : List Item → Stack → CalcResult
  | [], s => .ok s
  | it :: rest, s =>
    match applyItem s it with
    | .ok s1 => calcItems rest s1
    | .err e => .err e
    | .panicked => .panicked

/- The calc-and-update part of main's loop body: calc runs on a clone of the
session stack; on Ok the returned stack replaces it, on Err the pre-line
stack is kept; none models a panic aborting the process. -/
def mainApplyLine (stack : Stack) (line : Line) : Option Stack :=
  match calcItems line stack with
  | .ok s1 => some s1
  | .err _ => some stack
  | .panicked => none

/- nom's multispace0: drop leading spaces, tabs, newlines and carriage
returns. -/
def multispace0 (l : List Char) : List Char :=
  l.dropWhile fun c => c == ' ' || c == '\t' || c == '\n' || c == '\r'

/- The optional single leading sign of nom's character::complete::i64;
true means non-negative. -/
def parseSign (l : List Char) : Bool × List Char :=
  match l with
  | c :: rest =>
    if c = '+' then (true, rest)
    else if c = '-' then (false, rest)
    else (true, l)
  | [] => (true, [])

/- One checked accumulation step of nom's i64 digit loop ('0'.toNat = 48);
a negative literal accumulates downward with checked subtraction. -/
def digitStep (positive : Bool) (value : ℤ) (c : Char) : ℤ :=
  if positive then value * 10 + ((c.toNat : ℤ) - 48)
  else value * 10 - ((c.toNat : ℤ) - 48)

/- The digit loop of nom's i64: consume decimal digits greedily, failing the
whole literal if a checked accumulation step overflows i64; stop at the first
non-digit. -/
def digitsAcc (positive : Bool) (value : ℤ) : List Char → Except Unit (List Char × ℤ)
  | [] => .ok ([], value)
  | c :: cs =>
    if c.isDigit then
      if fitsI64 (digitStep positive value c) then
        digitsAcc positive (digitStep positive value c) cs
      else .error ()
    else .ok (c :: cs, value)

/- After the sign, nom's i64 requires the first character to be a digit. -/
def parseI64Aux (positive : Bool) : List Char → Except Unit (List Char × ℤ)
  | [] => .error ()
  | c :: cs => if c.isDigit then digitsAcc positive 0 (c :: cs) else .error ()

/- nom's character::complete::i64, the number branch of Item::parse. -/
def parseI64 (l : List Char) : Except Unit (List Char × ℤ) :=
  parseI64Aux (parseSign l).1 (parseSign l).2

/- Operator::parse: alt of the single-character tags, in source order. -/
def Operator.parse : List Char → Except Unit (List Char × Operator)
  | [] => .error ()
  | c :: rest =>
    if c = '+' then .ok (rest, .Add)
    else if c = '*' then .ok (rest, .Multiply)
    else if c = '-' then .ok (rest, .Subtract)
    else if c = 'S' then .ok (rest, .Sum)
    else if c = '^' then .ok (rest, .Power)
    else if c = 'c' then .ok (rest, .Clear)
    else if c = '/' then .ok (rest, .Divide)
    else .error ()

/- Item::parse: try a signed i64 literal first, then an operator; this order
makes a sign directly followed by digits bind as a literal. -/
def Item.parse (l : List Char) : Except Unit (List Char × Item) :=
  match parseI64 l with
  | .ok (rest, n) => .ok (rest, .Num (n : ℚ))
  | .error _ =>
    match Operator.parse l with
    | .ok (rest, op) => .ok (rest, .Operator op)
    | .error e => .error e

/- delimited(multispace0, Item::parse, multispace0). -/
def itemDelimited (l : List Char) : Except Unit (List Char × Item) :=
  match Item.parse (multispace0 l) with
  | .ok (rest, it) => .ok (multispace0 rest, it)
  | .error e => .error e

/- nom's many0 over itemDelimited: stop (successfully) at the first failure
of the inner parser; error out if an iteration consumed nothing (nom's
infinite-loop guard, unreachable here) or on fuel exhaustion (likewise
unreachable with fuel > input length, as each iteration consumes a
character). -/
def many0Items : ℕ → List Char → Except Unit (List Char × List Item)
  | 0, _ => .error ()
  | fuel + 1, l =>
    match itemDelimited l with
    | .error _ => .ok (l, [])
    | .ok (rest, it) =>
      if rest.length < l.length then
        match many0Items fuel rest with
        | .ok (r, its) => .ok (r, it :: its)
        | .error e => .error e
      else .error ()

/- Line::parse: many0 of whitespace-delimited items, returning the
unconsumed residue of the input together with the parsed tokens. -/
def Line.parse (input : List Char) : Except Unit (List Char × Line) :=
  many0Items (input.length + 1) input

/- One iteration of main's read-eval loop body: parse the buffer; on a parse
error keep the stack ("Parsing Error!"), otherwise evaluate the parsed
tokens — ignoring any unconsumed residue — against the session stack. -/
def mainStep (stack : Stack) (input : List Char) : Option Stack :=
  match Line.parse input with
  | .error _ => some stack
  | .ok (_, line) => mainApplyLine stack line

/- Helper lemmas about the evaluator. -/

theorem pop1_append (s : List ℚ) (a : ℚ) : pop1 (s ++ [a]) = some (s, a) := by
  induction s with
  | nil => rfl
  | cons x xs ih =>
    cases xs with
    | nil => simp [pop1]
    | cons y r => simp [pop1] at ih ⊢; rw [ih]

theorem binStep_append (f : ℚ → ℚ → Option ℚ) (s : List ℚ) (b a : ℚ) :
    binStep f (s ++ [b, a]) =
      match f b a with
      | none => .err .MathError
      | some r => .ok (s ++ [r]) := by
  have h2 : s ++ [b, a] = (s ++ [b]) ++ [a] := by simp
  unfold binStep
  rw [h2]
  simp only [pop1_append]

theorem binStep_pair (f : ℚ → ℚ → Option ℚ) (b a : ℚ) :
    binStep f [b, a] =
      match f b a with
      | none => .err .MathError
      | some r => .ok [r] := by
  simpa using binStep_append f [] b a

theorem powStep_append (s : List ℚ) (b a : ℚ) :
    powStep (s ++ [b, a]) =
      if fitsI32 (ratToInteger a) then
        match ratPow b (ratToInteger a) with
        | some r => .ok (s ++ [r])
        | none => .panicked
      else .err .MathError := by
  have h2 : s ++ [b, a] = (s ++ [b]) ++ [a] := by simp
  unfold powStep
  rw [h2]
  simp only [pop1_append]

theorem ratCheckedAdd_some {x y r : ℚ} (h : ratCheckedAdd x y = some r) : r = x + y := by
  unfold ratCheckedAdd at h
  split at h
  · exact (Option.some.injEq _ _ ▸ h).symm
  · exact absurd h (by simp)

theorem ratCheckedSub_some {x y r : ℚ} (h : ratCheckedSub x y = some r) : r = x - y := by
  unfold ratCheckedSub at h
  split at h
  · exact (Option.some.injEq _ _ ▸ h).symm
  · exact absurd h (by simp)

theorem ratCheckedMul_some {x y r : ℚ} (h : ratCheckedMul x y = some r) : r = x * y := by
  unfold ratCheckedMul at h
  split at h
  · exact (Option.some.injEq _ _ ▸ h).symm
  · exact absurd h (by simp)

theorem ratCheckedDiv_some {x y r : ℚ} (h : ratCheckedDiv x y = some r) : r = x / y := by
  unfold ratCheckedDiv at h
  split at h
  · exact absurd h (by simp)
  · split at h
    · exact (Option.some.injEq _ _ ▸ h).symm
    · exact absurd h (by simp)

theorem ratCheckedDiv_ne_zero {x y r : ℚ} (h : ratCheckedDiv x y = some r) : y ≠ 0 := by
  intro hy
  rw [hy] at h
  simp [ratCheckedDiv] at h

theorem ratPow_some {b : ℚ} {e : ℤ} {r : ℚ} (h : ratPow b e = some r) : r = b ^ e := by
  unfold ratPow at h
  split at h
  · next hneg =>
    split at h
    · exact absurd h (by simp)
    · split at h
      · have hr : r = b⁻¹ ^ e.natAbs := (Option.some.injEq _ _ ▸ h).symm
        have hb : b⁻¹ ^ e.natAbs = b ^ (-(e.natAbs : ℤ)) := by
          rw [zpow_neg, zpow_natCast, inv_pow]
        rw [hr, hb, show -((e.natAbs : ℤ)) = e by omega]
      · exact absurd h (by simp)
  · next hpos =>
    split at h
    · have hr : r = b ^ e.toNat := (Option.some.injEq _ _ ▸ h).symm
      rw [hr, show b ^ e.toNat = b ^ ((e.toNat : ℤ)) from (zpow_natCast b e.toNat).symm,
        show ((e.toNat : ℤ)) = e by omega]
    · exact absurd h (by simp)

theorem ratSumFrom_some {l : List ℚ} {acc t : ℚ} (h : ratSumFrom acc l = some t) :
    t = acc + l.sum := by
  induction l generalizing acc with
  | nil =>
    simp [ratSumFrom] at h
    simp [h.symm]
  | cons x r ih =>
    unfold ratSumFrom at h
    split at h
    · next a ha =>
      have hax : a = acc + x := ratCheckedAdd_some ha
      have := ih h
      rw [this, hax, List.sum_cons, add_assoc]
    · exact absurd h (by simp)

theorem calcItems_cons_ok {s s1 : Stack} {it : Item} (rest : List Item)
    (h : applyItem s it = .ok s1) : calcItems (it :: rest) s = calcItems rest s1 := by
  show (match applyItem s it with
    | .ok s2 => calcItems rest s2
    | .err e => .err e
    | .panicked => .panicked) = calcItems rest s1
  rw [h]

theorem applyItem_num (s : Stack) (n : ℚ) : applyItem s (.Num n) = .ok (s ++ [n]) := rfl

/- Helper lemmas about the parser: every successful item parse consumes at
least one character, so many0 with fuel greater than the input length never
runs out. -/

theorem multispace0_length_le (l : List Char) : (multispace0 l).length ≤ l.length :=
  (List.dropWhile_sublist _).length_le

theorem parseSign_length_le (l : List Char) : (parseSign l).2.length ≤ l.length := by
  unfold parseSign
  cases l with
  | nil => simp
  | cons c rest =>
    dsimp only
    split
    · simp
    · split <;> simp

theorem digitsAcc_length_le {positive : Bool} {value : ℤ} {l r : List Char} {n : ℤ}
    (h : digitsAcc positive value l = .ok (r, n)) : r.length ≤ l.length := by
  induction l generalizing value with
  | nil =>
    simp [digitsAcc] at h
    simp [h.1.symm]
  | cons c cs ih =>
    have h2 : (if c.isDigit then
        (if fitsI64 (digitStep positive value c) then
          digitsAcc positive (digitStep positive value c) cs
        else .error ())
      else .ok (c :: cs, value)) = Except.ok (r, n) := h
    split at h2
    · split at h2
      · exact le_trans (ih h2) (by simp)
      · exact absurd h2 (by simp)
    · cases h2
      exact le_refl _

theorem parseI64Aux_consumes {positive : Bool} {l r : List Char} {n : ℤ}
    (h : parseI64Aux positive l = .ok (r, n)) : r.length < l.length := by
  cases l with
  | nil => exact absurd h (by simp [parseI64Aux])
  | cons c cs =>
    have h2 : (if c.isDigit then digitsAcc positive 0 (c :: cs) else .error ()) =
        Except.ok (r, n) := h
    split at h2
    · next hdig =>
      have h3 : (if c.isDigit then
          (if fitsI64 (digitStep positive 0 c) then
            digitsAcc positive (digitStep positive 0 c) cs
          else .error ())
        else .ok (c :: cs, 0)) = Except.ok (r, n) := h2
      rw [if_pos hdig] at h3
      split at h3
      · exact Nat.lt_succ_of_le (digitsAcc_length_le h3)
      · exact absurd h3 (by simp)
    · exact absurd h2 (by simp)

theorem parseI64_consumes {l r : List Char} {n : ℤ}
    (h : parseI64 l = .ok (r, n)) : r.length < l.length :=
  lt_of_lt_of_le (parseI64Aux_consumes h) (parseSign_length_le l)

theorem operatorParse_consumes {l r : List Char} {op : Operator}
    (h : Operator.parse l = .ok (r, op)) : r.length < l.length := by
  cases l with
  | nil => exact absurd h (by simp [Operator.parse])
  | cons c cs =>
    have h2 : (if c = '+' then (Except.ok (cs, Operator.Add) : Except Unit (List Char × Operator))
        else if c = '*' then .ok (cs, .Multiply)
        else if c = '-' then .ok (cs, .Subtract)
        else if c = 'S' then .ok (cs, .Sum)
        else if c = '^' then .ok (cs, .Power)
        else if c = 'c' then .ok (cs, .Clear)
        else if c = '/' then .ok (cs, .Divide)
        else .error ()) = .ok (r, op) := h
    split_ifs at h2 <;> cases h2 <;> exact Nat.lt_succ_self _

theorem itemParse_consumes {l r : List Char} {it : Item}
    (h : Item.parse l = .ok (r, it)) : r.length < l.length := by
  unfold Item.parse at h
  split at h
  · next heq =>
    cases h
    exact parseI64_consumes heq
  · split at h
    · next heq =>
      cases h
      exact operatorParse_consumes heq
    · exact absurd h (by simp)

theorem itemDelimited_consumes {l rest : List Char} {it : Item}
    (h : itemDelimited l = .ok (rest, it)) : rest.length < l.length := by
  unfold itemDelimited at h
  split at h
  · next r0 it0 heq =>
    cases h
    calc (multispace0 r0).length ≤ r0.length := multispace0_length_le r0
      _ < (multispace0 l).length := itemParse_consumes heq
      _ ≤ l.length := multispace0_length_le l
  · exact absurd h (by simp)

theorem many0Items_ok (fuel : ℕ) : ∀ l : List Char, l.length < fuel →
    ∃ rest toks, many0Items fuel l = .ok (rest, toks) := by
  induction fuel with
  | zero => intro l hl; omega
  | succ n ih =>
    intro l hl
    unfold many0Items
    cases hit : itemDelimited l with
    | error e => exact ⟨l, [], rfl⟩
    | ok p =>
      obtain ⟨rest, it⟩ := p
      have hc : rest.length < l.length := itemDelimited_consumes hit
      obtain ⟨r, toks, hr⟩ := ih rest (by omega)
      refine ⟨r, it :: toks, ?_⟩
      show (if rest.length < l.length then
          match many0Items n rest with
          | .ok (r1, its) => Except.ok (r1, it :: its)
          | .error e => .error e
        else .error ()) = _
      rw [if_pos hc, hr]

/- Claim theorems. -/

/-- C1 (counterexample): on the input "3 %\n", whose character '%' is not
consumable as an integer literal, an operator, or whitespace, Line::parse
does NOT fail: it returns Ok with the partial token sequence [3] and the
unconsumed residue "%\n", and main evaluates that partial sequence, pushing
3 onto the stack. This refutes the claim that such a line yields a single
ParseFailure with no partial token sequence surfaced to the caller. -/
theorem parse_accepts_unrecognized_residue :
    Line.parse ("3 %\n".toList) = .ok ("%\n".toList, [Item.Num 3]) ∧
      mainStep [] ("3 %\n".toList) = some [(3 : ℚ)] :=
  ⟨by with_unfolding_all rfl, by with_unfolding_all rfl⟩

/-- C1 (amended): Line::parse is total — for every input it returns Ok,
pairing the longest parsable prefix of tokens with the unconsumed residue;
it never reports a ParseFailure, and main goes on to evaluate the returned
(possibly partial) token sequence. -/
theorem parse_total (input : List Char) :
    ∃ rest toks, Line.parse input = Except.ok (rest, toks) :=
  many0Items_ok (input.length + 1) input (Nat.lt_succ_self _)

/-- C2: if evaluating a token line over the session stack fails with any
CalcError, the stack main carries into the next line is exactly the stack as
it stood before the line began (calc ran on a clone that is discarded). -/
theorem failed_line_preserves_stack (stack : Stack) (line : Line) (e : CalcError)
    (h : calcItems line stack = .err e) : mainApplyLine stack line = some stack := by
  unfold mainApplyLine
  rw [h]

/-- C2 (witness): evaluating [Add] on the one-element stack [1] underflows,
and main keeps the pre-line stack [1]. -/
theorem failed_line_preserves_stack_witness :
    mainApplyLine [(1 : ℚ)] [Item.Operator Operator.Add] = some [(1 : ℚ)] :=
  failed_line_preserves_stack [(1 : ℚ)] [Item.Operator Operator.Add]
    CalcError.NotEnoughItemsInStack (by with_unfolding_all rfl)

/-- C3: for every binary operator, the item popped second (pushed earlier)
is the left operand and the item popped first (top of stack) the right
operand/exponent: whenever the operator arm succeeds on a stack ending in
[.., b, a] the pushed result is b OP a; and evaluating [5, 2, Subtract] on
the empty stack yields [3]. -/
theorem binary_operand_order :
    (∀ (s : List ℚ) (b a : ℚ) (r : List ℚ),
        applyOp (s ++ [b, a]) Operator.Add = .ok r → r = s ++ [b + a]) ∧
      (∀ (s : List ℚ) (b a : ℚ) (r : List ℚ),
        applyOp (s ++ [b, a]) Operator.Subtract = .ok r → r = s ++ [b - a]) ∧
      (∀ (s : List ℚ) (b a : ℚ) (r : List ℚ),
        applyOp (s ++ [b, a]) Operator.Multiply = .ok r → r = s ++ [b * a]) ∧
      (∀ (s : List ℚ) (b a : ℚ) (r : List ℚ),
        applyOp (s ++ [b, a]) Operator.Divide = .ok r → r = s ++ [b / a]) ∧
      (∀ (s : List ℚ) (b a : ℚ) (r : List ℚ),
        applyOp (s ++ [b, a]) Operator.Power = .ok r → r = s ++ [b ^ ratToInteger a]) ∧
      calcItems [Item.Num 5, Item.Num 2, Item.Operator Operator.Subtract] [] = .ok [3] := by
  refine ⟨?_, ?_, ?_, ?_, ?_, by with_unfolding_all rfl⟩
  · intro s b a r h
    rw [show applyOp (s ++ [b, a]) Operator.Add = binStep ratCheckedAdd (s ++ [b, a]) from rfl,
      binStep_append] at h
    split at h
    · exact absurd h (by simp)
    · next v hv =>
      cases h
      rw [ratCheckedAdd_some hv]
  · intro s b a r h
    rw [show applyOp (s ++ [b, a]) Operator.Subtract = binStep ratCheckedSub (s ++ [b, a]) from
      rfl, binStep_append] at h
    split at h
    · exact absurd h (by simp)
    · next v hv =>
      cases h
      rw [ratCheckedSub_some hv]
  · intro s b a r h
    rw [show applyOp (s ++ [b, a]) Operator.Multiply = binStep ratCheckedMul (s ++ [b, a]) from
      rfl, binStep_append] at h
    split at h
    · exact absurd h (by simp)
    · next v hv =>
      cases h
      rw [ratCheckedMul_some hv]
  · intro s b a r h
    rw [show applyOp (s ++ [b, a]) Operator.Divide = binStep ratCheckedDiv (s ++ [b, a]) from
      rfl, binStep_append] at h
    split at h
    · exact absurd h (by simp)
    · next v hv =>
      cases h
      rw [ratCheckedDiv_some hv]
  · intro s b a r h
    rw [show applyOp (s ++ [b, a]) Operator.Power = powStep (s ++ [b, a]) from rfl,
      powStep_append] at h
    split at h
    · split at h
      · next v hv =>
        cases h
        rw [ratPow_some hv]
      · exact absurd h (by simp)
    · exact absurd h (by simp)

/-- C3 (witness): instantiating the Subtract case at stack [5, 2] (so b = 5,
a = 2): the pushed result [3] equals [] ++ [5 - 2]. -/
theorem binary_operand_order_witness : ([(3 : ℚ)] : List ℚ) = [] ++ [(5 : ℚ) - 2] :=
  binary_operand_order.2.1 [] 5 2 [3] (by with_unfolding_all rfl)

/-- C4 (counterexample): evaluate([2, -1, Power]) does not fail with the
arithmetic-error kind; it succeeds and yields [1/2] (Ratio::pow accepts
negative i32 exponents via the reciprocal), refuting the claim that a
negative exponent always produces the arithmetic-error failure. -/
theorem power_negative_exponent_succeeds :
    calcItems [Item.Num 2, Item.Num (-1), Item.Operator Operator.Power] [] =
      .ok [(1 : ℚ) / 2] := by
  with_unfolding_all rfl

/-- C4 (amended): Power pops a (exponent) then b (base) and truncates a
toward zero to an integer e; it fails with the arithmetic-error kind
(MathError) whenever e does not fit the 32-bit exponent width, and whenever
the arm succeeds the pushed value is exactly b ^ e — so non-integral
exponents are truncated rather than rejected and negative fitting exponents
are accepted; evaluate([3, 2, Power]) yields [9] and
evaluate([2, -1, Power]) yields [1/2]. -/
theorem power_semantics :
    (∀ (s : List ℚ) (b a : ℚ), ¬ fitsI32 (ratToInteger a) →
        applyOp (s ++ [b, a]) Operator.Power = .err CalcError.MathError) ∧
      (∀ (s : List ℚ) (b a : ℚ) (r : List ℚ),
        applyOp (s ++ [b, a]) Operator.Power = .ok r → r = s ++ [b ^ ratToInteger a]) ∧
      calcItems [Item.Num 3, Item.Num 2, Item.Operator Operator.Power] [] = .ok [9] ∧
      calcItems [Item.Num 2, Item.Num (-1), Item.Operator Operator.Power] [] =
        .ok [(1 : ℚ) / 2] := by
  refine ⟨?_, ?_, by with_unfolding_all rfl, by with_unfolding_all rfl⟩
  · intro s b a hfit
    rw [show applyOp (s ++ [b, a]) Operator.Power = powStep (s ++ [b, a]) from rfl,
      powStep_append, if_neg hfit]
  · intro s b a r h
    rw [show applyOp (s ++ [b, a]) Operator.Power = powStep (s ++ [b, a]) from rfl,
      powStep_append] at h
    split at h
    · split at h
      · next v hv =>
        cases h
        rw [ratPow_some hv]
      · exact absurd h (by simp)
    · exact absurd h (by simp)

/-- C4 (witness): with exponent 2^31 (which does not fit an i32) on base 2,
the Power arm fails with MathError. -/
theorem power_semantics_witness :
    applyOp ([] ++ [(2 : ℚ), 2147483648]) Operator.Power = .err CalcError.MathError :=
  power_semantics.1 [] 2 2147483648 (by decide)

/-- C5: Power's base arithmetic is NOT overflow-checked: evaluating
[4294967296, 2, Power] squares 2^32 with unchecked i64::pow, which panics in
a debug build and wraps in a release build instead of failing with the typed
MathError the claim (and the checked Add/Sub/Mul/Div arms) promise. -/
theorem power_overflow_panics :
    calcItems [Item.Num 4294967296, Item.Num 2, Item.Operator Operator.Power] [] =
      .panicked := by
  with_unfolding_all rfl

/-- C6: whenever summing the stack does not overflow, the Sum operator
succeeds and replaces the entire stack with the single entry equal to the
sum of all current entries; evaluate([Sum]) on the empty stack yields [0]
and evaluate([2, 4, 6, Sum]) yields [12]. -/
theorem sum_replaces_stack :
    (∀ (s : List ℚ) (t : ℚ), ratSum s = some t →
        applyOp s Operator.Sum = .ok [s.sum]) ∧
      calcItems [Item.Operator Operator.Sum] [] = .ok [0] ∧
      calcItems [Item.Num 2, Item.Num 4, Item.Num 6, Item.Operator Operator.Sum] [] =
        .ok [12] := by
  refine ⟨?_, by with_unfolding_all rfl, by with_unfolding_all rfl⟩
  intro s t h
  have ht : t = s.sum := by
    have := @ratSumFrom_some s 0 t h
    simpa using this
  rw [show applyOp s Operator.Sum =
    (match ratSum s with
      | some t => CalcResult.ok [t]
      | none => CalcResult.panicked) from rfl, h, ht]

/-- C6 (witness): summing the stack [1, 2] does not overflow, and Sum
replaces it with the single entry equal to its sum. -/
theorem sum_replaces_stack_witness :
    applyOp [(1 : ℚ), 2] Operator.Sum = .ok [([(1 : ℚ), 2]).sum] :=
  sum_replaces_stack.1 [1, 2] 3 (by with_unfolding_all rfl)

/-- C7: Sum's iter().sum() is NOT overflow-checked: evaluating
[2^62, 2^62, Sum] overflows the i64 numerator while summing and panics
(debug) or wraps (release) instead of failing with a typed CalcError, so the
evaluator does not fail closed on Sum overflow. -/
theorem sum_overflow_panics :
    calcItems [Item.Num 4611686018427387904, Item.Num 4611686018427387904,
      Item.Operator Operator.Sum] [] = .panicked := by
  with_unfolding_all rfl

/-- C8: Divide on a stack with at least two items whose top entry is zero
fails with MathError (the arithmetic-error kind), never with stack
underflow; in particular evaluate([5, 0, Divide]) on the empty stack fails
with MathError. -/
theorem divide_by_zero_math_error :
    (∀ (s : List ℚ) (b : ℚ),
        applyOp (s ++ [b, 0]) Operator.Divide = .err CalcError.MathError) ∧
      calcItems [Item.Num 5, Item.Num 0, Item.Operator Operator.Divide] [] =
        .err CalcError.MathError := by
  refine ⟨?_, by with_unfolding_all rfl⟩
  intro s b
  rw [show applyOp (s ++ [b, 0]) Operator.Divide = binStep ratCheckedDiv (s ++ [b, 0]) from rfl,
    binStep_append]
  simp [ratCheckedDiv]

/-- C9: exact rational round-trip: pushing x onto an otherwise-empty stack
and applying Divide by d then Multiply by d restores exactly x, provided
both checked operations stay within the i64 overflow bound (their success is
the hypothesis). -/
theorem divide_multiply_round_trip (x d q r : ℚ)
    (h1 : ratCheckedDiv x d = some q) (h2 : ratCheckedMul q d = some r) :
    calcItems [Item.Num d, Item.Operator Operator.Divide, Item.Num d,
      Item.Operator Operator.Multiply] [x] = .ok [x] := by
  have hd : d ≠ 0 := ratCheckedDiv_ne_zero h1
  have hq : q = x / d := ratCheckedDiv_some h1
  have hr : r = q * d := ratCheckedMul_some h2
  have hrx : r = x := by
    rw [hr, hq, div_mul_cancel₀ x hd]
  rw [calcItems_cons_ok _ (applyItem_num [x] d)]
  show calcItems [Item.Operator Operator.Divide, Item.Num d,
    Item.Operator Operator.Multiply] [x, d] = .ok [x]
  have hdiv : applyItem [x, d] (Item.Operator Operator.Divide) = .ok [q] := by
    rw [show applyItem [x, d] (Item.Operator Operator.Divide) =
      binStep ratCheckedDiv ([] ++ [x, d]) from rfl, binStep_append, h1]
    rfl
  rw [calcItems_cons_ok _ hdiv]
  rw [calcItems_cons_ok _ (applyItem_num [q] d)]
  show calcItems [Item.Operator Operator.Multiply] [q, d] = .ok [x]
  have hmul : applyItem [q, d] (Item.Operator Operator.Multiply) = .ok [r] := by
    rw [show applyItem [q, d] (Item.Operator Operator.Multiply) =
      binStep ratCheckedMul ([] ++ [q, d]) from rfl, binStep_append, h2]
    rfl
  rw [show calcItems [Item.Operator Operator.Multiply] [q, d] =
    (match applyItem [q, d] (Item.Operator Operator.Multiply) with
      | .ok s1 => calcItems [] s1
      | .err e => .err e
      | .panicked => .panicked) from rfl, hmul, hrx]
  rfl

/-- C9 (witness): pushing 5, dividing by 3 and multiplying by 3 — both
checked steps succeed — restores exactly 5. -/
theorem divide_multiply_round_trip_witness :
    calcItems [Item.Num 3, Item.Operator Operator.Divide, Item.Num 3,
      Item.Operator Operator.Multiply] [(5 : ℚ)] = .ok [(5 : ℚ)] :=
  divide_multiply_round_trip 5 3 (5 / 3) 5 (by with_unfolding_all rfl)
    (by with_unfolding_all rfl)

/-- C10: Line::calc is not total: evaluating [0, -1, Power] reaches
Ratio::recip on zero, which panics and aborts the process instead of
returning Ok or Err — contradicting the claim that calc never panics,
specifically on a Power with base 0 and a negative exponent. -/
theorem power_zero_negative_panics :
    calcItems [Item.Num 0, Item.Num (-1), Item.Operator Operator.Power] [] =
      .panicked := by
  with_unfolding_all rfl
